import Mathlib

/-!
Shallow embedding of tinfo (src/main.rs): a tmux session/window directory
tool.  The external queries (`tmux list-sessions`, `tmux list-windows -a`)
deliver text; the program splits it on newlines and processes the lines, so
the builders below take the resulting line lists as input.  The two regexes
SESSION_RE and WINDOW_RE are embedded as parsing functions with the regex
crate's leftmost-first (greedy, start-anchored, end-unanchored) capture
semantics.  Fatal aborts (`unwrap` on a failed regex capture, `unreachable!`
on a missing session id, the cardinality checks in `get_cmd`/`attach_cmd`)
are embedded as `Except Fatal` values carrying the runtime's message string.
-/

namespace Tinfo

/-- A window inside a session (`struct Tab`): `name`, `number` (the tab
index within the session), `panes`. -/
structure Tab where
  name : String
  number : Nat
  panes : Nat
deriving DecidableEq

/-- A session (`struct Window`): its tabs in discovery order and the
attached flag. -/
structure Window where
  tabs : List Tab
  attached : Bool
deriving DecidableEq

/-- `type WindowList = HashMap<usize, Window>`: modelled as an association
list; the HashMap invariant (no duplicate keys) is stated where needed. -/
abbrev WindowList : Type := List (Nat × Window)

/-- HashMap lookup (`get` / `get_mut`). -/
def lookupWL : WindowList → Nat → Option Window
  | [], _ => none
  | (k, w) :: rest, k' => if k = k' then some w else lookupWL rest k'

/-- HashMap `insert`: overwrites the entry if the key is present. -/
def insertWL : WindowList → Nat → Window → WindowList
  | [], k, v => [(k, v)]
  | (k', v') :: rest, k, v =>
    if k' = k then (k, v) :: rest else (k', v') :: insertWL rest k v

/-- `self.get_mut(&win_)` followed by `window.push(new_tab)`: appends a tab
to the entry with the given key (no-op when the key is absent; `populate`
checks presence first). -/
def pushTab : WindowList → Nat → Tab → WindowList
  | [], _, _ => []
  | (k, w) :: rest, k', t =>
    if k = k' then (k, ⟨w.tabs ++ [t], w.attached⟩) :: rest
    else (k, w) :: pushTab rest k' t

/-- `str::parse::<usize>()` on a digit string. -/
def natOfDigits (ds : List Char) : Nat :=
  ds.foldl (fun n c => n * 10 + (c.toNat - 48)) 0

/-- Match a literal regex fragment, returning the remaining input. -/
def stripLit : List Char → List Char → Option (List Char)
  | [], cs => some cs
  | _ :: _, [] => none
  | p :: ps, c :: cs => if c = p then stripLit ps cs else none

/-- Greedy `(.*)`: the longest prefix whose remainder satisfies the rest of
the pattern, as a backtracking (leftmost-first) engine would pick it. -/
def greedyDotStar (tail : List Char → Option α) : List Char → Option (List Char × α)
  | [] => (tail []).map (fun a => ([], a))
  | c :: cs =>
    match greedyDotStar tail cs with
    | some (p, a) => some (c :: p, a)
    | none => (tail (c :: cs)).map (fun a => ([], a))

/-- The fragment after the greedy group in SESSION_RE, `\) \[\d+x\d+\]`,
returning the remainder of the line (where the optional capture
`( \(attached\))?` is then tried). -/
def matchSessTail (cs : List Char) : Option (List Char) :=
  match stripLit (") [".toList) cs with
  | none => none
  | some cs1 =>
    let s1 := cs1.span (fun c => c.isDigit)
    if s1.1.isEmpty then none else
    match stripLit ("x".toList) s1.2 with
    | none => none
    | some cs2 =>
      let s2 := cs2.span (fun c => c.isDigit)
      if s2.1.isEmpty then none else
      stripLit ("]".toList) s2.2

/-- SESSION_RE, `^(\d+): \d+ windows \(.*\) \[\d+x\d+\]( \(attached\))?`:
on a match, capture 1 parsed as the session id and the presence of
capture 2 as the attached flag (`cap.get(2).is_some()`). -/
def parseSessionLine (line : String) : Option (Nat × Bool) :=
  let cs := line.toList
  let s1 := cs.span (fun c => c.isDigit)
  if s1.1.isEmpty then none else
  match stripLit (": ".toList) s1.2 with
  | none => none
  | some cs1 =>
    let s2 := cs1.span (fun c => c.isDigit)
    if s2.1.isEmpty then none else
    match stripLit (" windows (".toList) s2.2 with
    | none => none
    | some cs2 =>
      match greedyDotStar matchSessTail cs2 with
      | none => none
      | some (_, rest) =>
        some (natOfDigits s1.1, (" (attached)".toList).isPrefixOf rest)

/-- The fragment after the greedy name group in WINDOW_RE,
` \((\d+) panes\) \[(\d+)x(\d+)\]`, returning the pane count (the
dimensions are parsed but discarded, as in the source). -/
def matchWinTail (cs : List Char) : Option Nat :=
  match stripLit (" (".toList) cs with
  | none => none
  | some cs1 =>
    let s1 := cs1.span (fun c => c.isDigit)
    if s1.1.isEmpty then none else
    match stripLit (" panes) [".toList) s1.2 with
    | none => none
    | some cs2 =>
      let s2 := cs2.span (fun c => c.isDigit)
      if s2.1.isEmpty then none else
      match stripLit ("x".toList) s2.2 with
      | none => none
      | some cs3 =>
        let s3 := cs3.span (fun c => c.isDigit)
        if s3.1.isEmpty then none else
        match stripLit ("]".toList) s3.2 with
        | none => none
        | some _ => some (natOfDigits s1.1)

/-- WINDOW_RE, `^(\d+):(\d+): (.*) \((\d+) panes\) \[(\d+)x(\d+)\]`:
on a match, (sessionId, tabIndex, name, paneCount). -/
def parseWindowLine (line : String) : Option (Nat × Nat × String × Nat) :=
  let cs := line.toList
  let s1 := cs.span (fun c => c.isDigit)
  if s1.1.isEmpty then none else
  match stripLit (":".toList) s1.2 with
  | none => none
  | some cs1 =>
    let s2 := cs1.span (fun c => c.isDigit)
    if s2.1.isEmpty then none else
    match stripLit (": ".toList) s2.2 with
    | none => none
    | some cs2 =>
      match greedyDotStar matchWinTail cs2 with
      | none => none
      | some (nm, panes) =>
        some (natOfDigits s1.1, natOfDigits s2.1, String.mk nm, panes)

/-- A fatal abort of the process, carrying the runtime's message. -/
inductive Fatal where
  | fatal (msg : String)
deriving DecidableEq

deriving instance DecidableEq for Except

/-- The message of `Option::unwrap()` on `None` (a regex capture failure). -/
def unwrapMsg : String := "called `Option::unwrap()` on a `None` value"

/-- The message of `unreachable!()` (a window line naming an unknown id). -/
def unreachableMsg : String := "internal error: entered unreachable code"

/-- The cardinality message of `get_cmd` and `attach_cmd`. -/
def cardinalityMsg : String := "Can only get with a single result"

/-- The session-line loop of `build_windowlist`: stop at the first empty
line; a regex miss is `captures(..).unwrap()` and aborts; otherwise insert
a session with no tabs and the parsed attached flag. -/
def buildSessions : WindowList → List String → Except Fatal WindowList
  | acc, [] => .ok acc
  | acc, line :: rest =>
    if line = "" then .ok acc
    else
      match parseSessionLine line with
      | none => .error (.fatal unwrapMsg)
      | some (id, att) => buildSessions (insertWL acc id ⟨[], att⟩) rest

/-- `populate`: stop at the first empty line; a regex miss aborts via
`unwrap`; a parsed record whose session id is absent hits `unreachable!`;
otherwise the tab is appended to its session. -/
def populate : WindowList → List String → Except Fatal WindowList
  | wl, [] => .ok wl
  | wl, line :: rest =>
    if line = "" then .ok wl
    else
      match parseWindowLine line with
      | none => .error (.fatal unwrapMsg)
      | some (sid, tidx, nm, panes) =>
        match lookupWL wl sid with
        | some _ => populate (pushTab wl sid ⟨nm, tidx, panes⟩) rest
        | none => .error (.fatal unreachableMsg)

/-- `build_windowlist` on the two query outputs, already split into lines:
session phase then window phase. -/
def build (S W : List String) : Except Fatal WindowList :=
  match buildSessions [] S with
  | .error e => .error e
  | .ok wl => populate wl W

/-- `str::find(pat)` is `Some` exactly when `pat` occurs as a contiguous
substring (the empty pattern always matches). -/
def findSub (pat : List Char) : List Char → Bool
  | [] => pat.isPrefixOf ([] : List Char)
  | c :: cs => pat.isPrefixOf (c :: cs) || findSub pat cs

/-- `select_tabs`: keep the tabs whose name contains the search term, drop
sessions left with no tabs, copy the attached flag. -/
def select_tabs : WindowList → String → WindowList
  | [], _ => []
  | (idx, w) :: rest, term =>
    let tabs := w.tabs.filter (fun t => findSub term.toList t.name.toList)
    if tabs.isEmpty then select_tabs rest term
    else (idx, ⟨tabs, w.attached⟩) :: select_tabs rest term

/-- The external side-effecting request a dispatch action issues. -/
inductive Request where
  | moveWindow (sessionId tabIndex : Nat)
  | attachSession (sessionId : Nat)
deriving DecidableEq

/-- `get_cmd`: requires exactly one session holding exactly one tab, then
issues `tmux move-window -s {id}:{number}`. -/
def get_cmd : WindowList → Except Fatal Request
  | [(idx, w)] =>
    match w.tabs with
    | [t] => .ok (.moveWindow idx t.number)
    | _ => .error (.fatal cardinalityMsg)
  | _ => .error (.fatal cardinalityMsg)

/-- `attach_cmd`: requires exactly one session, then issues
`tmux attach-session -t {id}`. -/
def attach_cmd : WindowList → Except Fatal Request
  | [(idx, _)] => .ok (.attachSession idx)
  | _ => .error (.fatal cardinalityMsg)

/-- `searchterms.collect::<String>()`: Rust's `FromIterator<&str> for
String` appends each fragment with no separator. -/
def collectTerms (ts : List String) : String :=
  ts.foldl (fun acc s => acc ++ s) ""

/-- The search branch of `main`: the collected positional arguments form
the single term handed to `select_tabs`. -/
def runSearch (wl : WindowList) (ts : List String) : WindowList :=
  select_tabs wl (collectTerms ts)

/-- The lines a query loop actually processes: everything before the first
empty line. -/
def activeLines : List String → List String
  | [] => []
  | l :: ls => if l = "" then [] else l :: activeLines ls

/-- The session id a session line parses to, if it matches. -/
def lineSessionId (l : String) : Option Nat :=
  (parseSessionLine l).map (fun r => r.1)

/-- The session ids parsed from the session-query lines. -/
def sessionIds (S : List String) : List Nat :=
  (activeLines S).filterMap lineSessionId

/-- The session id a window line parses to, if it matches. -/
def lineWindowSid (l : String) : Option Nat :=
  (parseWindowLine l).map (fun r => r.1)

/-- How many processed window lines name session `k`. -/
def windowCount (W : List String) (k : Nat) : Nat :=
  ((activeLines W).filter (fun l => lineWindowSid l == some k)).length

/-- The tabs the window phase appends to session `k`, in line order. -/
def tabsFor (k : Nat) (ls : List String) : List Tab :=
  (activeLines ls).filterMap (fun l =>
    match parseWindowLine l with
    | some (s, t, n, p) => if s = k then some ⟨n, t, p⟩ else none
    | none => none)

example : parseSessionLine "7: 2 windows (created Fri) [80x24] (attached)" = some (7, true) := by decide
example : parseSessionLine "7: 2 windows (x) [80x24]" = some (7, false) := by decide
example : parseSessionLine "bogus" = none := by decide
example : parseWindowLine "7:0: shell (1 panes) [80x24]" = some (7, 0, "shell", 1) := by decide
example : parseWindowLine "1:0: x (0 panes) [1x1]" = some (1, 0, "x", 0) := by decide
example : parseWindowLine "9:0: a (2 panes) [1x1] (3 panes) [4x5]" = some (9, 0, "a (2 panes) [1x1]", 3) := by decide
example : parseWindowLine "" = none := by decide
example : build ["7: 2 windows (x) [80x24] (attached)"] ["7:0: shell (1 panes) [80x24]", "7:1: editor (1 panes) [80x24]"] = .ok [(7, ⟨[⟨"shell", 0, 1⟩, ⟨"editor", 1, 1⟩], true⟩)] := by decide

/-- Looking a key up after a HashMap insert. -/
theorem lookup_insertWL (m : WindowList) (k : Nat) (v : Window) (k' : Nat) :
    lookupWL (insertWL m k v) k' = if k = k' then some v else lookupWL m k' := by
  induction m with
  | nil => simp [insertWL, lookupWL]
  | cons p rest ih =>
    obtain ⟨a, w⟩ := p
    by_cases hak : a = k
    · subst hak
      by_cases hk' : a = k' <;> simp [insertWL, lookupWL, hk']
    · by_cases hk' : a = k'
      · subst hk'
        simp [insertWL, hak, lookupWL, Ne.symm hak]
      · simp [insertWL, hak, lookupWL, hk', ih]

/-- Looking a key up after appending a tab to session `k`. -/
theorem lookup_pushTab (m : WindowList) (k : Nat) (t : Tab) (k' : Nat) :
    lookupWL (pushTab m k t) k' =
      if k = k' then (lookupWL m k).map (fun w => ⟨w.tabs ++ [t], w.attached⟩)
      else lookupWL m k' := by
  induction m with
  | nil => simp [pushTab, lookupWL]
  | cons p rest ih =>
    obtain ⟨a, w⟩ := p
    by_cases hak : a = k
    · subst hak
      by_cases hk' : a = k' <;> simp [pushTab, lookupWL, hk']
    · by_cases hk' : a = k'
      · subst hk'
        simp [pushTab, hak, lookupWL, ih, Ne.symm hak]
      · simp [pushTab, hak, lookupWL, hk', ih]

/-- A successful lookup means the key is among the entry keys. -/
theorem lookup_mem_keys (m : WindowList) (k : Nat) (w : Window)
    (h : lookupWL m k = some w) : k ∈ m.map Prod.fst := by
  induction m with
  | nil => cases h
  | cons p rest ih =>
    obtain ⟨a, w'⟩ := p
    by_cases hak : a = k
    · simp [hak]
    · rw [lookupWL, if_neg hak] at h
      simp [ih h]

/-- The session phase: on well-formed lines it succeeds, its keys are the
parsed ids plus the accumulator's, and (if the accumulator's sessions are
all tabless) every session it returns is tabless. -/
theorem buildSessions_ok (S : List String) (acc : WindowList)
    (hS : ∀ l ∈ activeLines S, (parseSessionLine l).isSome)
    (hacc : ∀ k w, lookupWL acc k = some w → w.tabs = []) :
    ∃ wl, buildSessions acc S = .ok wl ∧
      (∀ k, (lookupWL wl k).isSome ↔ (k ∈ sessionIds S ∨ (lookupWL acc k).isSome)) ∧
      (∀ k w, lookupWL wl k = some w → w.tabs = []) := by
  induction S generalizing acc with
  | nil => exact ⟨acc, rfl, by simp [sessionIds, activeLines], hacc⟩
  | cons l ls ih =>
    by_cases hl : l = ""
    · subst hl
      exact ⟨acc, by simp [buildSessions], by simp [sessionIds, activeLines], hacc⟩
    · obtain ⟨r, hr⟩ := Option.isSome_iff_exists.mp (hS l (by simp [activeLines, hl]))
      obtain ⟨id, att⟩ := r
      have hacc' : ∀ k w, lookupWL (insertWL acc id ⟨[], att⟩) k = some w → w.tabs = [] := by
        intro k w h
        rw [lookup_insertWL] at h
        by_cases hidk : id = k
        · rw [if_pos hidk] at h
          cases h
          rfl
        · rw [if_neg hidk] at h
          exact hacc k w h
      obtain ⟨wl, hbs, hkeys, hempty⟩ := ih (insertWL acc id ⟨[], att⟩)
        (by intro l' hl'; exact hS l' (by simp [activeLines, hl, hl'])) hacc'
      refine ⟨wl, by simp [buildSessions, hl, hr, hbs], ?_, hempty⟩
      intro k
      rw [hkeys k]
      have hids : sessionIds (l :: ls) = id :: sessionIds ls := by
        simp [sessionIds, activeLines, hl, lineSessionId, hr]
      rw [hids, lookup_insertWL]
      by_cases hidk : id = k
      · subst hidk
        simp
      · simp [hidk, Ne.symm hidk]

/-- The window phase: when every processed line parses and names a present
session, it succeeds and each session gains exactly the tabs of its lines. -/
theorem populate_ok (ls : List String) (wl : WindowList)
    (h : ∀ l ∈ activeLines ls,
        ∃ s t n p, parseWindowLine l = some (s, t, n, p) ∧ (lookupWL wl s).isSome) :
    ∃ d, populate wl ls = .ok d ∧
      ∀ k, lookupWL d k =
        (lookupWL wl k).map (fun w => ⟨w.tabs ++ tabsFor k ls, w.attached⟩) := by
  induction ls generalizing wl with
  | nil =>
    refine ⟨wl, rfl, fun k => ?_⟩
    cases hw : lookupWL wl k <;> simp [tabsFor, activeLines]
  | cons l ls ih =>
    by_cases hl : l = ""
    · subst hl
      refine ⟨wl, by simp [populate], fun k => ?_⟩
      cases hw : lookupWL wl k <;> simp [tabsFor, activeLines]
    · obtain ⟨s, t, n, p, hp, hsome⟩ := h l (by simp [activeLines, hl])
      obtain ⟨w0, hw0⟩ := Option.isSome_iff_exists.mp hsome
      have hstep : populate wl (l :: ls) = populate (pushTab wl s ⟨n, t, p⟩) ls := by
        simp [populate, hl, hp, hw0]
      have hih : ∀ l' ∈ activeLines ls,
          ∃ s' t' n' p', parseWindowLine l' = some (s', t', n', p') ∧
            (lookupWL (pushTab wl s ⟨n, t, p⟩) s').isSome := by
        intro l' hl'
        obtain ⟨s', t', n', p', hp', hsome'⟩ := h l' (by simp [activeLines, hl, hl'])
        refine ⟨s', t', n', p', hp', ?_⟩
        rw [lookup_pushTab]
        by_cases hss : s = s'
        · subst hss
          simpa using hsome'
        · simpa [hss] using hsome'
      obtain ⟨d, hpd, hd⟩ := ih (pushTab wl s ⟨n, t, p⟩) hih
      refine ⟨d, by rw [hstep]; exact hpd, fun k => ?_⟩
      rw [hd k, lookup_pushTab]
      have htabs : tabsFor k (l :: ls) =
          (if s = k then (⟨n, t, p⟩ : Tab) :: tabsFor k ls else tabsFor k ls) := by
        by_cases hsk : s = k
        · subst hsk
          simp [tabsFor, activeLines, hl, hp]
        · simp [tabsFor, activeLines, hl, hp, hsk]
      rw [htabs]
      by_cases hsk : s = k
      · subst hsk
        cases hw : lookupWL wl s <;> simp [hw]
      · simp [hsk]

/-- The tabs appended to a session are in bijection with its window lines. -/
theorem tabsFor_length (ls : List String) (k : Nat) :
    (tabsFor k ls).length = windowCount ls k := by
  induction ls with
  | nil => rfl
  | cons l ls ih =>
    by_cases hl : l = ""
    · subst hl
      simp [tabsFor, windowCount, activeLines]
    · cases hp : parseWindowLine l with
      | none =>
        simp [tabsFor, windowCount, activeLines, hl, lineWindowSid, hp]
        simpa [tabsFor, windowCount] using ih
      | some r =>
        obtain ⟨s, t, n, p⟩ := r
        by_cases hsk : s = k
        · subst hsk
          simp [tabsFor, windowCount, activeLines, hl, lineWindowSid, hp]
          simpa [tabsFor, windowCount] using ih
        · simp [tabsFor, windowCount, activeLines, hl, lineWindowSid, hp, hsk]
          simpa [tabsFor, windowCount] using ih

/-- C1: for well-formed session lines S and window lines W naming only ids
parsed from S, the build succeeds, the directory's keys are exactly the
ids parsed from S, and each session holds as many tabs as W has lines
naming it. -/
theorem build_keys_and_counts (S W : List String)
    (hS : ∀ l ∈ activeLines S, (parseSessionLine l).isSome)
    (hW : ∀ l ∈ activeLines W, (parseWindowLine l).isSome)
    (href : ∀ l ∈ activeLines W, ∀ s t n p,
        parseWindowLine l = some (s, t, n, p) → s ∈ sessionIds S) :
    ∃ d, build S W = .ok d ∧
      (∀ k, (lookupWL d k).isSome ↔ k ∈ sessionIds S) ∧
      (∀ k w, lookupWL d k = some w → w.tabs.length = windowCount W k) := by
  obtain ⟨wl, hbs, hkeys, hempty⟩ := buildSessions_ok S [] hS (by intro k w h; cases h)
  have hkeys' : ∀ k, (lookupWL wl k).isSome ↔ k ∈ sessionIds S := by
    intro k
    rw [hkeys k]
    simp [lookupWL]
  have hpop : ∀ l ∈ activeLines W,
      ∃ s t n p, parseWindowLine l = some (s, t, n, p) ∧ (lookupWL wl s).isSome := by
    intro l hl
    obtain ⟨r, hr⟩ := Option.isSome_iff_exists.mp (hW l hl)
    obtain ⟨s, t, n, p⟩ := r
    exact ⟨s, t, n, p, hr, (hkeys' s).mpr (href l hl s t n p hr)⟩
  obtain ⟨d, hpd, hd⟩ := populate_ok W wl hpop
  refine ⟨d, ?_, ?_, ?_⟩
  · unfold build
    rw [hbs]
    exact hpd
  · intro k
    rw [← hkeys' k, hd k]
    cases hwl : lookupWL wl k <;> simp
  · intro k w hw
    rw [hd k] at hw
    cases hwl : lookupWL wl k with
    | none => rw [hwl] at hw; cases hw
    | some w0 =>
      rw [hwl] at hw
      cases hw
      have h0 : w0.tabs = [] := hempty k w0 hwl
      simp [h0, tabsFor_length]

/-- C1 witness: the spec's worked example, a single attached session 7 with
two windows. -/
theorem build_keys_and_counts_witness :
    ∃ d, build ["7: 2 windows (x) [80x24] (attached)"]
        ["7:0: shell (1 panes) [80x24]", "7:1: editor (1 panes) [80x24]"] = .ok d ∧
      (∀ k, (lookupWL d k).isSome ↔
          k ∈ sessionIds ["7: 2 windows (x) [80x24] (attached)"]) ∧
      (∀ k w, lookupWL d k = some w → w.tabs.length =
          windowCount ["7:0: shell (1 panes) [80x24]", "7:1: editor (1 panes) [80x24]"] k) := by
  apply build_keys_and_counts
  · decide
  · decide
  · intro l hl s t n p hp
    have hl' : l = "7:0: shell (1 panes) [80x24]" ∨ l = "7:1: editor (1 panes) [80x24]" := by
      have ha : activeLines ["7:0: shell (1 panes) [80x24]", "7:1: editor (1 panes) [80x24]"] =
          ["7:0: shell (1 panes) [80x24]", "7:1: editor (1 panes) [80x24]"] := by decide
      rw [ha] at hl
      simpa using hl
    rcases hl' with rfl | rfl
    · have h1 : parseWindowLine "7:0: shell (1 panes) [80x24]" = some (7, 0, "shell", 1) := by
        decide
      rw [h1] at hp
      simp only [Option.some.injEq, Prod.mk.injEq] at hp
      obtain ⟨rfl, -, -, -⟩ := hp
      decide
    · have h2 : parseWindowLine "7:1: editor (1 panes) [80x24]" = some (7, 1, "editor", 1) := by
        decide
      rw [h2] at hp
      simp only [Option.some.injEq, Prod.mk.injEq] at hp
      obtain ⟨rfl, -, -, -⟩ := hp
      decide

/-- C3: during the window phase, if every processed line parses and some
processed line names a session id absent from the directory, the builder
aborts with the ConsistencyError panic (the record is neither dropped nor
turned into a new session). -/
theorem missing_session_aborts (wl : WindowList) (ls : List String)
    (hparse : ∀ l ∈ activeLines ls, (parseWindowLine l).isSome)
    (hmiss : ∃ l ∈ activeLines ls, ∃ s t n p,
        parseWindowLine l = some (s, t, n, p) ∧ lookupWL wl s = none) :
    populate wl ls = .error (.fatal unreachableMsg) := by
  induction ls generalizing wl with
  | nil =>
    obtain ⟨l, hl, -⟩ := hmiss
    cases hl
  | cons l0 ls ih =>
    by_cases h0 : l0 = ""
    · subst h0
      obtain ⟨l, hl, -⟩ := hmiss
      simp [activeLines] at hl
    · obtain ⟨r, hr⟩ := Option.isSome_iff_exists.mp (hparse l0 (by simp [activeLines, h0]))
      obtain ⟨s0, t0, n0, p0⟩ := r
      cases hlk : lookupWL wl s0 with
      | none => simp [populate, h0, hr, hlk]
      | some w0 =>
        have hstep : populate wl (l0 :: ls) = populate (pushTab wl s0 ⟨n0, t0, p0⟩) ls := by
          simp [populate, h0, hr, hlk]
        rw [hstep]
        apply ih
        · intro l hl
          exact hparse l (by simp [activeLines, h0, hl])
        · obtain ⟨l, hl, s, t, n, p, hp, hnone⟩ := hmiss
          have hl' : l = l0 ∨ l ∈ activeLines ls := by
            simpa [activeLines, h0] using hl
          rcases hl' with rfl | hl'
          · rw [hr] at hp
            simp only [Option.some.injEq, Prod.mk.injEq] at hp
            obtain ⟨rfl, -, -, -⟩ := hp
            rw [hlk] at hnone
            cases hnone
          · refine ⟨l, hl', s, t, n, p, hp, ?_⟩
            rw [lookup_pushTab]
            by_cases hss : s0 = s
            · subst hss
              rw [hlk] at hnone
              cases hnone
            · simpa [hss] using hnone

/-- C3 witness: the spec's example, window line `9:0: x (1 panes) [1x1]`
against a directory holding only session 1. -/
theorem missing_session_aborts_witness :
    populate [(1, ⟨[], false⟩)] ["9:0: x (1 panes) [1x1]"] =
      .error (.fatal unreachableMsg) := by
  apply missing_session_aborts
  · decide
  · exact ⟨"9:0: x (1 panes) [1x1]", by decide, 9, 0, "x", 1, by decide, by decide⟩

/-- C9: an empty line ends a query's output: everything after the first
empty line is ignored by both the session loop and the window loop, even
lines that match no grammar. -/
theorem empty_line_terminates (xs ys : List String) (acc wl : WindowList) :
    buildSessions acc (xs ++ "" :: ys) = buildSessions acc xs ∧
    populate wl (xs ++ "" :: ys) = populate wl xs := by
  induction xs generalizing acc wl with
  | nil => exact ⟨by simp [buildSessions], by simp [populate]⟩
  | cons x xs ih =>
    by_cases hx : x = ""
    · subst hx
      exact ⟨by simp [buildSessions], by simp [populate]⟩
    · constructor
      · cases hp : parseSessionLine x with
        | none => simp [buildSessions, hx, hp]
        | some r =>
          obtain ⟨id, att⟩ := r
          simp only [List.cons_append, buildSessions, hx, if_neg hx, hp]
          exact (ih _ wl).1
      · cases hp : parseWindowLine x with
        | none => simp [populate, hx, hp]
        | some r =>
          obtain ⟨s, t, n, p⟩ := r
          cases hlk : lookupWL wl s with
          | none => simp [populate, hx, hp, hlk]
          | some w0 =>
            simp only [List.cons_append, populate, hx, if_neg hx, hp, hlk]
            exact (ih acc _).2

/-- C2: `get_cmd` succeeds with a move-window request exactly on one
session holding exactly one tab; `attach_cmd` succeeds with an
attach-session request exactly on one session; every other cardinality is
the fatal cardinality message and no request. -/
theorem dispatch_cardinality (wl : WindowList) :
    ((∃ r, get_cmd wl = .ok r) ↔ ∃ i w t, wl = [(i, w)] ∧ w.tabs = [t]) ∧
    ((∃ r, attach_cmd wl = .ok r) ↔ ∃ i w, wl = [(i, w)]) ∧
    (∀ e, get_cmd wl = .error e → e = .fatal cardinalityMsg) ∧
    (∀ e, attach_cmd wl = .error e → e = .fatal cardinalityMsg) ∧
    (∀ i w t, wl = [(i, w)] → w.tabs = [t] →
        get_cmd wl = .ok (.moveWindow i t.number)) ∧
    (∀ i w, wl = [(i, w)] → attach_cmd wl = .ok (.attachSession i)) := by
  match wl with
  | [] => simp [get_cmd, attach_cmd]
  | [(i, w)] =>
    refine ⟨?_, ?_, ?_, ?_, ?_, ?_⟩
    · match hw : w.tabs with
      | [] => simp [get_cmd, hw]
      | [t] =>
        simp only [get_cmd, hw]
        exact ⟨fun _ => ⟨i, w, t, rfl, hw⟩, fun _ => ⟨_, rfl⟩⟩
      | t1 :: t2 :: ts =>
        simp only [get_cmd, hw]
        constructor
        · rintro ⟨r, hr⟩
          cases hr
        · rintro ⟨i', w', t', hw', ht'⟩
          cases hw'
          rw [hw] at ht'
          cases ht'
    · simp [attach_cmd]
    · intro e he
      rw [get_cmd] at he
      match hw : w.tabs, he with
      | [], he => cases he; rfl
      | t1 :: t2 :: ts, he => cases he; rfl
    · intro e he
      cases he
    · rintro i' w' t' hw' ht'
      cases hw'
      simp [get_cmd, ht']
    · rintro i' w' hw'
      cases hw'
      simp [attach_cmd]
  | p :: q :: rest =>
    refine ⟨?_, ?_, ?_, ?_, ?_, ?_⟩
    · simp [get_cmd]
    · simp [attach_cmd]
    · intro e he
      cases he
      rfl
    · intro e he
      cases he
      rfl
    · rintro i w t hw
      cases hw
    · rintro i w hw
      cases hw

/-- C4 counterexample: a directory holding a windowless session (reachable
from a session line reporting 0 windows) is not returned intact by the
empty-term filter: the session is dropped. -/
theorem filter_empty_term_counterexample :
    build ["1: 0 windows (a) [1x1]"] [] = .ok [(1, ⟨[], false⟩)] ∧
    select_tabs [(1, ⟨[], false⟩)] "" = [] ∧
    lookupWL [(1, ⟨[], false⟩)] 1 = some ⟨[], false⟩ ∧
    lookupWL (select_tabs [(1, ⟨[], false⟩)] "") 1 = none := by decide

/-- C4 amended: on a directory whose sessions all hold at least one tab,
filtering with the empty term returns the directory unchanged; a
windowless session, however, is dropped by the empty-term filter. -/
theorem filter_empty_term_id (wl : WindowList) (h : ∀ p ∈ wl, p.2.tabs ≠ []) :
    select_tabs wl "" = wl := by
  induction wl with
  | nil => rfl
  | cons p rest ih =>
    obtain ⟨i, w⟩ := p
    have hfilter : w.tabs.filter (fun t => findSub "".toList t.name.toList) = w.tabs := by
      apply List.filter_eq_self.mpr
      intro t _
      cases t.name.toList <;> simp [findSub, List.isPrefixOf]
    have hne : w.tabs ≠ [] := h (i, w) (List.mem_cons_self _ _)
    have hemp : w.tabs.isEmpty = false := by
      cases htabs : w.tabs with
      | nil => exact absurd htabs hne
      | cons a l => rfl
    simp only [select_tabs, hfilter, hemp, Bool.false_eq_true, if_false]
    rw [ih (fun q hq => h q (List.mem_cons_of_mem _ hq))]

/-- C4 amended witness: a concrete two-session directory with tabs is
returned unchanged. -/
theorem filter_empty_term_id_witness :
    select_tabs [(1, ⟨[⟨"shell", 0, 1⟩], true⟩), (4, ⟨[⟨"vim", 2, 2⟩], false⟩)] "" =
      [(1, ⟨[⟨"shell", 0, 1⟩], true⟩), (4, ⟨[⟨"vim", 2, 2⟩], false⟩)] :=
  filter_empty_term_id _ (by decide)

/-- C5: every session the filter returns holds at least one tab, and its
attached flag is the one of the same session in the input directory. -/
theorem filter_keeps_nonempty (wl : WindowList) (term : String)
    (hnd : (wl.map Prod.fst).Nodup) (k : Nat) (w : Window)
    (h : lookupWL (select_tabs wl term) k = some w) :
    w.tabs ≠ [] ∧ ∃ w₀, lookupWL wl k = some w₀ ∧ w.attached = w₀.attached := by
  induction wl with
  | nil => cases h
  | cons p rest ih =>
    obtain ⟨i, w1⟩ := p
    rw [List.map_cons, List.nodup_cons] at hnd
    by_cases hemp : (w1.tabs.filter (fun t => findSub term.toList t.name.toList)).isEmpty
    · rw [select_tabs] at h
      simp only [hemp, if_true] at h
      obtain ⟨hne, w₀, hw₀, hatt⟩ := ih hnd.2 h
      refine ⟨hne, w₀, ?_, hatt⟩
      have hik : ¬i = k := by
        intro hik
        subst hik
        exact hnd.1 (lookup_mem_keys rest i w₀ hw₀)
      rw [lookupWL, if_neg hik]
      exact hw₀
    · rw [select_tabs] at h
      simp only [hemp, Bool.false_eq_true, if_false] at h
      rw [lookupWL] at h
      by_cases hik : i = k
      · rw [if_pos hik] at h
        cases h
        refine ⟨?_, w1, ?_, rfl⟩
        · intro hnil
          have hnil' : w1.tabs.filter (fun t => findSub term.toList t.name.toList) = [] := hnil
          rw [hnil'] at hemp
          exact hemp rfl
        · rw [lookupWL, if_pos hik]
      · rw [if_neg hik] at h
        obtain ⟨hne, w₀, hw₀, hatt⟩ := ih hnd.2 h
        refine ⟨hne, w₀, ?_, hatt⟩
        rw [lookupWL, if_neg hik]
        exact hw₀

/-- C5 witness: filtering a two-session directory by "ed" keeps session 7
with its matching tab and its attached flag. -/
theorem filter_keeps_nonempty_witness :
    (⟨[⟨"editor", 1, 1⟩], true⟩ : Window).tabs ≠ [] ∧
    ∃ w₀, lookupWL [(3, ⟨[⟨"log", 0, 1⟩], false⟩), (7, ⟨[⟨"editor", 1, 1⟩, ⟨"shell", 2, 1⟩], true⟩)] 7 =
        some w₀ ∧ (⟨[⟨"editor", 1, 1⟩], true⟩ : Window).attached = w₀.attached :=
  filter_keeps_nonempty
    [(3, ⟨[⟨"log", 0, 1⟩], false⟩), (7, ⟨[⟨"editor", 1, 1⟩, ⟨"shell", 2, 1⟩], true⟩)]
    "ed" (by decide) 7 ⟨[⟨"editor", 1, 1⟩], true⟩ (by decide)

/-- C6: the search filter is idempotent. -/
theorem filter_idempotent (wl : WindowList) (term : String) :
    select_tabs (select_tabs wl term) term = select_tabs wl term := by
  induction wl with
  | nil => rfl
  | cons p rest ih =>
    obtain ⟨i, w⟩ := p
    by_cases hemp : (w.tabs.filter (fun t => findSub term.toList t.name.toList)).isEmpty
    · rw [select_tabs]
      simp only [hemp, if_true]
      exact ih
    · rw [select_tabs]
      simp only [hemp, Bool.false_eq_true, if_false]
      rw [select_tabs]
      have hff : (w.tabs.filter (fun t => findSub term.toList t.name.toList)).filter
          (fun t => findSub term.toList t.name.toList) =
          w.tabs.filter (fun t => findSub term.toList t.name.toList) :=
        List.filter_eq_self.mpr (fun a ha => (List.mem_filter.mp ha).2)
      simp only [hff, hemp, Bool.false_eq_true, if_false]
      rw [ih]

/-- C7 counterexample: a malformed line aborts the run, but through the
generic `Option::unwrap` panic: its message does not quote the offending
line, for either grammar. -/
theorem parse_error_counterexample :
    buildSessions [] ["bogus line"] = .error (.fatal unwrapMsg) ∧
    populate [] ["bogus line"] = .error (.fatal unwrapMsg) ∧
    findSub "bogus line".toList unwrapMsg.toList = false := by decide

/-- C7 amended: a processed line matching neither grammar makes the
corresponding loop abort fatally, with the fixed `Option::unwrap` panic
message (which is independent of the offending line) rather than an error
quoting the line. -/
theorem parse_failure_aborts (acc wl : WindowList) (line : String) (ls : List String)
    (hne : line ≠ "") :
    (parseSessionLine line = none →
        buildSessions acc (line :: ls) = .error (.fatal unwrapMsg)) ∧
    (parseWindowLine line = none →
        populate wl (line :: ls) = .error (.fatal unwrapMsg)) := by
  constructor <;> intro h
  · simp [buildSessions, hne, h]
  · simp [populate, hne, h]

/-- C7 amended witness: the line `no digits here` fails both grammars and
both loops abort with the unwrap panic. -/
theorem parse_failure_aborts_witness :
    (parseSessionLine "no digits here" = none →
        buildSessions [] ["no digits here"] = .error (.fatal unwrapMsg)) ∧
    (parseWindowLine "no digits here" = none →
        populate [] ["no digits here"] = .error (.fatal unwrapMsg)) :=
  parse_failure_aborts [] [] "no digits here" [] (by decide)

/-- C8 counterexample: `(\d+)` accepts `0`, so a window line with pane
count 0 matches WINDOW_RE and is consumed without any error. -/
theorem zero_panes_counterexample :
    parseWindowLine "1:0: x (0 panes) [1x1]" = some (1, 0, "x", 0) ∧
    populate [(1, ⟨[], false⟩)] ["1:0: x (0 panes) [1x1]"] =
      .ok [(1, ⟨[⟨"x", 0, 0⟩], false⟩)] := by decide

/-- C8 amended: a window line whose pane-count field is 0 matches the
grammar; the window loop treats it like any other line, appending a tab
with `panes = 0` instead of raising a ParseError. -/
theorem zero_panes_parses (wl : WindowList) (ls : List String) (l : String)
    (s t : Nat) (n : String)
    (hp : parseWindowLine l = some (s, t, n, 0))
    (hk : (lookupWL wl s).isSome) :
    populate wl (l :: ls) = populate (pushTab wl s ⟨n, t, 0⟩) ls := by
  have hne : l ≠ "" := by
    intro hl
    subst hl
    exact Option.noConfusion ((rfl : parseWindowLine "" = none).symm.trans hp)
  obtain ⟨w0, hw0⟩ := Option.isSome_iff_exists.mp hk
  simp [populate, hne, hp, hw0]

/-- C8 amended witness: the zero-pane line is consumed as a normal tab
append on a directory holding session 1. -/
theorem zero_panes_parses_witness :
    populate [(1, ⟨[], false⟩)] ["1:0: x (0 panes) [1x1]"] =
      populate (pushTab [(1, ⟨[], false⟩)] 1 ⟨"x", 0, 0⟩) [] :=
  zero_panes_parses [(1, ⟨[], false⟩)] [] "1:0: x (0 panes) [1x1]" 1 0 "x"
    (by decide) (by decide)

/-- C10: `main` collects the positional search arguments into one string
with no separator, so `tinfo foo bar` filters by the single substring
`foobar`. -/
theorem search_terms_concatenated (wl : WindowList) :
    (∀ ts, runSearch wl ts = select_tabs wl (String.join ts)) ∧
    runSearch wl ["foo", "bar"] = select_tabs wl "foobar" ∧
    collectTerms ["foo", "bar"] = "foobar" ∧
    collectTerms ["foo", "bar"] ≠ "foo bar" := by
  refine ⟨fun ts => rfl, ?_, by decide, by decide⟩
  have h : collectTerms ["foo", "bar"] = "foobar" := by decide
  rw [runSearch, h]

end Tinfo
